import Mathlib

/-!
Verification of the challenge participation/progress subsystem of the scout backend.

The definitions below are a shallow embedding of
`src/controllers/challengeParticipantController.js`,
`src/controllers/challengeController.js`, the user controller, and the
referential rules declared in the Prisma migrations
(`prisma/migrations/20260123141652_init/migration.sql` and
`prisma/migrations/20260205130151_add_challenge_progress_features/migration.sql`).

Modelling conventions:
- SQL `DOUBLE PRECISION` columns (`progress`, `targetProgress`, `progressDelta`)
  are modelled as `ℚ`; the subsystem only adds, compares and clamps these values.
- Timestamps are modelled as `Nat`.
- The relational store is modelled as a `DB` record of rows; a Prisma
  `$transaction` is a single function step on `DB`, which is exactly the
  atomicity the store provides.
- JavaScript truthiness on numbers (`x || 100`, `if (!challengeId)`,
  `taskId ? ... : null`) treats `0` as falsy; this is modelled explicitly.
-/

namespace Scout

/-- Enum `ParticipantStatus` from the migration
`20260205130151_add_challenge_progress_features`. -/
inductive ParticipantStatus
  | ACTIVE
  | COMPLETED
  | DROPPED
  | PAUSED
deriving DecidableEq, Repr

/-- The columns of `User` that this subsystem reads (`select { id, name, email }`). -/
structure User where
  id : Nat
  name : String
  email : String
deriving DecidableEq, Repr

/-- The columns of `Challenge` that this subsystem reads.
`targetProgress` is `DOUBLE PRECISION NOT NULL DEFAULT 100`, hence not optional. -/
structure Challenge where
  id : Nat
  title : String
  targetProgress : ℚ
deriving DecidableEq, Repr

/-- A `ChallengeParticipant` row.  `completedAt` is the only nullable column. -/
structure ChallengeParticipant where
  id : Nat
  challengeId : Nat
  userId : Nat
  progress : ℚ
  status : ParticipantStatus
  joinedAt : Nat
  completedAt : Option Nat
deriving DecidableEq, Repr

/-- A `ProgressLog` row (`taskId` is nullable). -/
structure ProgressLog where
  id : Nat
  participantId : Nat
  taskId : Option Nat
  description : String
  progressDelta : ℚ
  createdAt : Nat
deriving DecidableEq, Repr

/-- The relational store, restricted to the tables the subsystem touches.
`nextParticipantId` and `nextLogId` model the `SERIAL` id sequences. -/
structure DB where
  users : List User
  challenges : List Challenge
  participants : List ChallengeParticipant
  progressLogs : List ProgressLog
  nextParticipantId : Nat
  nextLogId : Nat
deriving DecidableEq, Repr

/-- Lookup `prisma.user.findUnique({ where: { id } })`. -/
def findUser (db : DB) (uid : Nat) : Option User :=
  db.users.find? (fun u => u.id == uid)

/-- Lookup `prisma.challenge.findUnique({ where: { id } })`. -/
def findChallenge (db : DB) (cid : Nat) : Option Challenge :=
  db.challenges.find? (fun c => c.id == cid)

/-- Lookup `prisma.challengeParticipant.findUnique({ where: { id } })`. -/
def findParticipant (db : DB) (pid : Nat) : Option ChallengeParticipant :=
  db.participants.find? (fun p => p.id == pid)

/-- JavaScript `t || 100` applied to the stored (non-null) double
`challenge.targetProgress`: the fallback fires exactly when the value is
falsy, i.e. `0`. -/
def effectiveTarget (t : ℚ) : ℚ :=
  if t = 0 then 100 else t

/-- The new progress value computed by `updateProgress`:
`Math.min(participant.progress + Number(progressDelta), 100)`. -/
def newProgressOf (p : ChallengeParticipant) (delta : ℚ) : ℚ :=
  min (p.progress + delta) 100

/-- The completion test of `updateProgress`:
`newProgress >= (participant.challenge.targetProgress || 100)`. -/
def progressCompletes (target : ℚ) (p : ChallengeParticipant) (delta : ℚ) : Bool :=
  effectiveTarget target ≤ newProgressOf p delta

/-- The participant update issued inside the `$transaction` of `updateProgress`:
progress is set to the clamped value; on completion the status becomes
`COMPLETED` and `completedAt` is set to now, otherwise the status is kept and
`completedAt` is written to `null`. -/
def applyProgress (target : ℚ) (p : ChallengeParticipant) (delta : ℚ) (now : Nat) :
    ChallengeParticipant :=
  { p with
    progress := newProgressOf p delta
    status := if progressCompletes target p delta then .COMPLETED else p.status
    completedAt := if progressCompletes target p delta then some now else none }

/-- The `ProgressLog` row inserted inside the `$transaction` of `updateProgress`.
JavaScript `taskId ? Number(taskId) : null` maps a falsy (absent or zero)
task id to `null`. -/
def mkLog (db : DB) (pid : Nat) (taskId : Option Nat) (description : String)
    (delta : ℚ) (now : Nat) : ProgressLog :=
  { id := db.nextLogId
    participantId := pid
    taskId := taskId.bind (fun t => if t = 0 then none else some t)
    description := description
    progressDelta := delta
    createdAt := now }

/-- Outcome of the `updateProgress` handler: an HTTP error response, or the
200 payload `{ participant, newLog, message }`. -/
inductive UpdateProgressOutcome
  | err (httpStatus : Nat) (message : String)
  | ok (participant : ChallengeParticipant) (newLog : ProgressLog) (message : String)
deriving DecidableEq, Repr

/-- True exactly on the success constructor. -/
def UpdateProgressOutcome.isOk : UpdateProgressOutcome → Bool
  | .ok _ _ _ => true
  | .err _ _ => false

/-- Handler `updateProgress` from `challengeParticipantController.js`.
The input `progressDelta` is `none` when the field is absent
(`progressDelta === undefined`); an empty `description` is falsy and rejected.
The two writes of the `$transaction` happen in one step or not at all. -/
def updateProgress (db : DB) (pid : Nat) (progressDelta : Option ℚ)
    (description : String) (taskId : Option Nat) (now : Nat) :
    UpdateProgressOutcome × DB :=
  match progressDelta with
  | none => (.err 400 "progressDelta and description are required", db)
  | some delta =>
    if description = "" then
      (.err 400 "progressDelta and description are required", db)
    else
      match findParticipant db pid with
      | none => (.err 404 "Participant not found", db)
      | some p =>
        if p.status = .COMPLETED then
          (.err 400 "Challenge already completed", db)
        else
          match findChallenge db p.challengeId with
          | none => (.err 500 "server error", db)
          | some ch =>
            let updated := applyProgress ch.targetProgress p delta now
            let log := mkLog db pid taskId description delta now
            ( .ok updated log
                (if progressCompletes ch.targetProgress p delta then
                  "Congratulations! Challenge completed!"
                else "Progress updated")
            , { db with
                participants :=
                  db.participants.map (fun q => if q.id = pid then updated else q)
                progressLogs := db.progressLogs ++ [log]
                nextLogId := db.nextLogId + 1 } )

/-- Outcome of the `createParticipant` handler: an HTTP error response, or the
201 payload, the created row with the selected user fields and the challenge
embedded. -/
inductive CreateParticipantOutcome
  | err (httpStatus : Nat) (message : String)
  | created (participant : ChallengeParticipant) (user : User) (challenge : Challenge)
deriving DecidableEq, Repr

/-- Handler `createParticipant` from `challengeParticipantController.js`.
`if (!challengeId || !userId)` rejects absent or zero (falsy) ids.  The insert
can fail on the unique index `ChallengeParticipant_challengeId_userId_key`
(Prisma error `P2002`, mapped to 400) or on the user foreign key
`ChallengeParticipant_userId_fkey` (`P2003`, mapped to 404); PostgreSQL raises
the unique-index violation at index insertion, before foreign-key triggers run. -/
def createParticipant (db : DB) (challengeId userId : Option Nat) (now : Nat) :
    CreateParticipantOutcome × DB :=
  if challengeId.getD 0 = 0 ∨ userId.getD 0 = 0 then
    (.err 400 "challengeId and userId are required", db)
  else
    let cid := challengeId.getD 0
    let uid := userId.getD 0
    match findChallenge db cid with
    | none => (.err 404 "Challenge not found", db)
    | some ch =>
      if db.participants.any (fun q => q.challengeId == cid && q.userId == uid) then
        (.err 400 "User already joined this challenge.", db)
      else
        match findUser db uid with
        | none => (.err 404 "User or Challenge not found", db)
        | some u =>
          let p : ChallengeParticipant :=
            { id := db.nextParticipantId
              challengeId := cid
              userId := uid
              progress := 0
              status := .ACTIVE
              joinedAt := now
              completedAt := none }
          ( .created p u ch
          , { db with
              participants := db.participants ++ [p]
              nextParticipantId := db.nextParticipantId + 1 } )

/-- The `validStatuses.includes(status)` check of `updateParticipantStatus`,
as a parser from the raw request string. -/
def parseStatus (s : String) : Option ParticipantStatus :=
  if s = "ACTIVE" then some .ACTIVE
  else if s = "COMPLETED" then some .COMPLETED
  else if s = "DROPPED" then some .DROPPED
  else if s = "PAUSED" then some .PAUSED
  else none

/-- Outcome of the `updateParticipantStatus` handler. -/
inductive UpdateStatusOutcome
  | err (httpStatus : Nat) (message : String)
  | ok (message : String) (participant : ChallengeParticipant)
deriving DecidableEq, Repr

/-- Handler `updateParticipantStatus` from `challengeParticipantController.js`: any
member of the enum is accepted and written as-is; no transition restriction,
and `completedAt` is not touched.  A missing row is Prisma `P2025`, mapped
to 404. -/
def updateParticipantStatus (db : DB) (pid : Nat) (status : String) :
    UpdateStatusOutcome × DB :=
  match parseStatus status with
  | none =>
    (.err 400 "Invalid status. Must be one of: ACTIVE, COMPLETED, DROPPED, PAUSED", db)
  | some st =>
    match findParticipant db pid with
    | none => (.err 404 "Participant not found", db)
    | some p =>
      let updated := { p with status := st }
      ( .ok ("Status updated to " ++ status) updated
      , { db with
          participants :=
            db.participants.map (fun q => if q.id = pid then updated else q) } )

/-- Rounding to two decimals, the `ℚ` counterpart of `toFixed(2)`. -/
def toFixed2 (q : ℚ) : ℚ :=
  (round (q * 100) : ℤ) / 100

/-- The `stats` object built by `getUserAllProgress`: note it has fields for
`COMPLETED`, `ACTIVE` and `DROPPED` counts but none for `PAUSED`. -/
structure UserStats where
  total : Nat
  completed : Nat
  active : Nat
  dropped : Nat
  averageProgress : ℚ
deriving DecidableEq, Repr

/-- The statistics computation of `getUserAllProgress` from
`challengeParticipantController.js`.  The handler also returns the
participation rows ordered by `joinedAt` descending; the ordering does not
affect the statistics, which are all the claim speaks about. -/
def getUserAllProgressStats (db : DB) (uid : Nat) : UserStats :=
  let ps := db.participants.filter (fun p => p.userId == uid)
  { total := ps.length
    completed := (ps.filter (fun p => p.status == .COMPLETED)).length
    active := (ps.filter (fun p => p.status == .ACTIVE)).length
    dropped := (ps.filter (fun p => p.status == .DROPPED)).length
    averageProgress :=
      if ps.length = 0 then 0
      else toFixed2 ((ps.foldl (fun s p => s + p.progress) 0) / (ps.length : ℚ)) }

/-- Ascending order on the nullable `completedAt` column with PostgreSQL
semantics: under `ASC`, `NULL` values sort last. -/
def completedAtAscLE : Option Nat → Option Nat → Bool
  | _, none => true
  | none, some _ => false
  | some a, some b => a ≤ b

/-- The `orderBy: [{ progress: 'desc' }, { completedAt: 'asc' }]` comparison of
`getChallengeLeaderboard`. -/
def leaderboardLE (a b : ChallengeParticipant) : Bool :=
  if a.progress = b.progress then completedAtAscLE a.completedAt b.completedAt
  else decide (b.progress < a.progress)

/-- One row of the leaderboard response. -/
structure LeaderboardEntry where
  rank : Nat
  participantId : Nat
  user : Option User
  progress : ℚ
  status : ParticipantStatus
  completedAt : Option Nat
  totalActivities : Nat
deriving DecidableEq, Repr

/-- The entry built for a participant by the final `map` of
`getChallengeLeaderboard`; `totalActivities` is the `_count.progressLogs`
relation count. -/
def mkEntry (db : DB) (rank : Nat) (p : ChallengeParticipant) : LeaderboardEntry :=
  { rank := rank
    participantId := p.id
    user := findUser db p.userId
    progress := p.progress
    status := p.status
    completedAt := p.completedAt
    totalActivities := (db.progressLogs.filter (fun l => l.participantId == p.id)).length }

/-- Annotation step `leaderboard.map((p, index) => ({ rank: index + 1, ... }))`, carrying the
1-based position. -/
def rankEntries (db : DB) : Nat → List ChallengeParticipant → List LeaderboardEntry
  | _, [] => []
  | r, p :: ps => mkEntry db r p :: rankEntries db (r + 1) ps

/-- The optional `status` query filter of `getChallengeLeaderboard`
(`status !== 'all'` adds `whereClause.status`). -/
def statusMatches (filt : Option ParticipantStatus) (p : ChallengeParticipant) : Bool :=
  match filt with
  | none => true
  | some s => p.status == s

/-- Handler `getChallengeLeaderboard` from `challengeParticipantController.js`:
filter by challenge (and optional status), order by progress descending with
`completedAt` ascending as tie-breaker, truncate to `limit` (the route default
is 10), then annotate with rank and log count. -/
def getChallengeLeaderboard (db : DB) (cid : Nat) (limit : Nat)
    (filt : Option ParticipantStatus) : List LeaderboardEntry :=
  rankEntries db 1
    (((db.participants.filter
        (fun p => p.challengeId == cid && statusMatches filt p)).mergeSort
      leaderboardLE).take limit)

/-- Outcome of the two delete handlers. -/
inductive DeleteOutcome
  | err (httpStatus : Nat) (message : String)
  | ok (message : String)
deriving DecidableEq, Repr

/-- Handler `deleteChallenge` from `challengeController.js` combined with the
referential rule `ChallengeParticipant_challengeId_fkey ... ON DELETE RESTRICT`
from the init migration: a missing row is Prisma `P2025`, mapped to 404; when
a participant still references the challenge the SQL delete violates the
restrict rule and the controller, which only special-cases `P2025`, answers
500 `"Failed to delete challenge"`.  Other tables referencing `Challenge` are
outside the modelled subsystem. -/
def deleteChallenge (db : DB) (cid : Nat) : DeleteOutcome × DB :=
  match findChallenge db cid with
  | none => (.err 404 "Challenge not found", db)
  | some _ =>
    if db.participants.any (fun p => p.challengeId == cid) then
      (.err 500 "Failed to delete challenge", db)
    else
      (.ok "Challenge deleted successfully",
        { db with challenges := db.challenges.filter (fun c => !(c.id == cid)) })

/-- Handler `deleteUser` from the user controller combined with
`ChallengeParticipant_userId_fkey ... ON DELETE RESTRICT`: the handler checks
existence first (404), then deletes; with participant rows referencing the
user the delete violates the restrict rule and the generic catch answers 500
`"Server error"`.  Other tables referencing `User` are outside the modelled
subsystem. -/
def deleteUser (db : DB) (uid : Nat) : DeleteOutcome × DB :=
  match findUser db uid with
  | none => (.err 404 "User not found", db)
  | some _ =>
    if db.participants.any (fun p => p.userId == uid) then
      (.err 500 "Server error", db)
    else
      (.ok "User deleted successfully",
        { db with users := db.users.filter (fun u => !(u.id == uid)) })

/-- States reachable through the engine operations named in the spec:
join (`createParticipant`), record progress (`updateProgress`) and
`updateParticipantStatus`, starting from a store holding arbitrary users and
challenges and no participants or logs. -/
inductive Reachable (users : List User) (challenges : List Challenge) : DB → Prop
  | init : Reachable users challenges
      { users := users, challenges := challenges, participants := [],
        progressLogs := [], nextParticipantId := 1, nextLogId := 1 }
  | join (db : DB) (cid uid : Option Nat) (now : Nat) :
      Reachable users challenges db →
      Reachable users challenges (createParticipant db cid uid now).2
  | progress (db : DB) (pid : Nat) (delta : Option ℚ) (descr : String)
      (taskId : Option Nat) (now : Nat) :
      Reachable users challenges db →
      Reachable users challenges (updateProgress db pid delta descr taskId now).2
  | setStatus (db : DB) (pid : Nat) (s : String) :
      Reachable users challenges db →
      Reachable users challenges (updateParticipantStatus db pid s).2

/-- States reachable through join and record progress only (no manual status
updates). -/
inductive ReachableJP (users : List User) (challenges : List Challenge) : DB → Prop
  | init : ReachableJP users challenges
      { users := users, challenges := challenges, participants := [],
        progressLogs := [], nextParticipantId := 1, nextLogId := 1 }
  | join (db : DB) (cid uid : Option Nat) (now : Nat) :
      ReachableJP users challenges db →
      ReachableJP users challenges (createParticipant db cid uid now).2
  | progress (db : DB) (pid : Nat) (delta : Option ℚ) (descr : String)
      (taskId : Option Nat) (now : Nat) :
      ReachableJP users challenges db →
      ReachableJP users challenges (updateProgress db pid delta descr taskId now).2

/-! Concrete rows used by counterexamples and witnesses. -/

/-- A user row. -/
def alice : User := { id := 1, name := "Alice", email := "alice@example.com" }

/-- A challenge whose `targetProgress` is the falsy value `0`. -/
def zeroTargetChallenge : Challenge :=
  { id := 1, title := "Zero target", targetProgress := 0 }

/-- A fresh `ACTIVE` participant of challenge 1. -/
def freshParticipant : ChallengeParticipant :=
  { id := 1, challengeId := 1, userId := 1, progress := 0, status := .ACTIVE,
    joinedAt := 0, completedAt := none }

/-- A store holding the zero-target challenge and one fresh participant. -/
def zeroTargetDB : DB :=
  { users := [alice], challenges := [zeroTargetChallenge],
    participants := [freshParticipant], progressLogs := [],
    nextParticipantId := 2, nextLogId := 1 }

/-- Second user row, for the leaderboard example. -/
def bob : User := { id := 2, name := "Bob", email := "bob@example.com" }

/-- Third user row, for the leaderboard example. -/
def carol : User := { id := 3, name := "Carol", email := "carol@example.com" }

/-- The store of the spec's leaderboard example: progress values
`[70, 90, 90]`, `completedAt` set only for the two rows at 90. -/
def leaderboardExampleDB : DB :=
  { users := [alice, bob, carol],
    challenges := [{ id := 1, title := "Run", targetProgress := 100 }],
    participants :=
      [{ id := 1, challengeId := 1, userId := 1, progress := 70,
         status := .ACTIVE, joinedAt := 0, completedAt := none },
       { id := 2, challengeId := 1, userId := 2, progress := 90,
         status := .COMPLETED, joinedAt := 0, completedAt := some 200 },
       { id := 3, challengeId := 1, userId := 3, progress := 90,
         status := .COMPLETED, joinedAt := 0, completedAt := some 100 }],
    progressLogs := [], nextParticipantId := 4, nextLogId := 1 }

/-- The leaderboard comparison on response entries (same keys, read from the
copied fields). -/
def entryLE (a b : LeaderboardEntry) : Bool :=
  if a.progress = b.progress then completedAtAscLE a.completedAt b.completedAt
  else decide (b.progress < a.progress)

/-! Branch characterizations of `updateProgress`, shared by several theorems. -/

theorem updateProgress_none (db : DB) (pid : Nat) (desc : String) (tid : Option Nat)
    (now : Nat) :
    updateProgress db pid none desc tid now =
      (.err 400 "progressDelta and description are required", db) := rfl

theorem updateProgress_empty_desc (db : DB) (pid : Nat) (d : ℚ) (tid : Option Nat)
    (now : Nat) :
    updateProgress db pid (some d) "" tid now =
      (.err 400 "progressDelta and description are required", db) := by
  simp [updateProgress]

theorem updateProgress_not_found (db : DB) (pid : Nat) (d : ℚ) (desc : String)
    (tid : Option Nat) (now : Nat) (hdesc : desc ≠ "")
    (hp : findParticipant db pid = none) :
    updateProgress db pid (some d) desc tid now =
      (.err 404 "Participant not found", db) := by
  simp [updateProgress, hdesc, hp]

theorem updateProgress_already_completed (db : DB) (pid : Nat) (d : ℚ) (desc : String)
    (tid : Option Nat) (now : Nat) (p : ChallengeParticipant) (hdesc : desc ≠ "")
    (hp : findParticipant db pid = some p) (hc : p.status = .COMPLETED) :
    updateProgress db pid (some d) desc tid now =
      (.err 400 "Challenge already completed", db) := by
  simp [updateProgress, hdesc, hp, hc]

theorem updateProgress_no_challenge (db : DB) (pid : Nat) (d : ℚ) (desc : String)
    (tid : Option Nat) (now : Nat) (p : ChallengeParticipant) (hdesc : desc ≠ "")
    (hp : findParticipant db pid = some p) (hnc : p.status ≠ .COMPLETED)
    (hch : findChallenge db p.challengeId = none) :
    updateProgress db pid (some d) desc tid now = (.err 500 "server error", db) := by
  simp [updateProgress, hdesc, hp, hnc, hch]

theorem updateProgress_ok (db : DB) (pid : Nat) (d : ℚ) (desc : String)
    (tid : Option Nat) (now : Nat) (p : ChallengeParticipant) (ch : Challenge)
    (hdesc : desc ≠ "") (hp : findParticipant db pid = some p)
    (hnc : p.status ≠ .COMPLETED) (hch : findChallenge db p.challengeId = some ch) :
    updateProgress db pid (some d) desc tid now =
      ( .ok (applyProgress ch.targetProgress p d now) (mkLog db pid tid desc d now)
          (if progressCompletes ch.targetProgress p d then
            "Congratulations! Challenge completed!"
          else "Progress updated")
      , { db with
          participants := db.participants.map
            (fun q => if q.id = pid then applyProgress ch.targetProgress p d now else q)
          progressLogs := db.progressLogs ++ [mkLog db pid tid desc d now]
          nextLogId := db.nextLogId + 1 } ) := by
  simp [updateProgress, hdesc, hp, hnc, hch]

/-- The Bool completion test, as the proposition it decides. -/
theorem progressCompletes_iff (t : ℚ) (p : ChallengeParticipant) (d : ℚ) :
    progressCompletes t p d = true ↔ effectiveTarget t ≤ min (p.progress + d) 100 := by
  unfold progressCompletes newProgressOf
  exact decide_eq_true_iff

/-- The participant update on the completing branch. -/
theorem applyProgress_of_completes (t : ℚ) (p : ChallengeParticipant) (d : ℚ)
    (now : Nat) (h : progressCompletes t p d = true) :
    applyProgress t p d now =
      { p with progress := min (p.progress + d) 100, status := .COMPLETED,
               completedAt := some now } := by
  unfold applyProgress newProgressOf
  rw [if_pos h, if_pos h]

/-- The participant update on the non-completing branch: the status is kept
but `completedAt` is written to `null`. -/
theorem applyProgress_of_not_completes (t : ℚ) (p : ChallengeParticipant) (d : ℚ)
    (now : Nat) (h : progressCompletes t p d = false) :
    applyProgress t p d now =
      { p with progress := min (p.progress + d) 100, completedAt := none } := by
  have h' : ¬ (progressCompletes t p d = true) := by simp [h]
  unfold applyProgress newProgressOf
  rw [if_neg h', if_neg h']

unseal Rat.add Rat.mul Rat.sub Rat.inv in
/-- C1, counterexample.  The claim reads the completion threshold as
`challenge.targetProgress`, with `100` only as a fallback for an unset value;
`targetProgress` is a `NOT NULL` column, so on a challenge with
`targetProgress = 0` the claim predicts completion as soon as the new progress
is `≥ 0`.  The code computes `targetProgress || 100`, and `0` is falsy in
JavaScript, so recording a delta of `50` on a fresh participant of the
zero-target challenge yields new progress `50 ≥ targetProgress = 0` and yet
the participant stays `ACTIVE`, `completedAt` stays null and the message is
`"Progress updated"`, not the congratulation the claim requires. -/
theorem updateProgress_zero_target_not_completed :
    updateProgress zeroTargetDB 1 (some 50) "run" none 7 =
      ( .ok { id := 1, challengeId := 1, userId := 1, progress := 50,
              status := .ACTIVE, joinedAt := 0, completedAt := none }
          { id := 1, participantId := 1, taskId := none, description := "run",
            progressDelta := 50, createdAt := 7 }
          "Progress updated"
      , { users := [alice], challenges := [zeroTargetChallenge],
          participants := [{ id := 1, challengeId := 1, userId := 1, progress := 50,
                             status := .ACTIVE, joinedAt := 0, completedAt := none }],
          progressLogs := [{ id := 1, participantId := 1, taskId := none,
                             description := "run", progressDelta := 50, createdAt := 7 }],
          nextParticipantId := 2, nextLogId := 2 } )
    ∧ zeroTargetChallenge.targetProgress ≤
        min (freshParticipant.progress + 50) 100 := by
  decide

/-- C1, amended: for every Record progress call on an existing, non-COMPLETED
participant with numeric `progressDelta` and non-empty `description`, the
stored progress becomes `min(participant.progress + progressDelta, 100)`; the
participant is marked completed exactly when that new progress is
`≥ (challenge.targetProgress, or 100 if targetProgress is unset or 0`, the
code treating any falsy value as absent`)`; in that case status is set to
`COMPLETED` and `completedAt` is set, otherwise status is left unchanged; the
returned message is `"Congratulations! Challenge completed!"` when completed
and `"Progress updated"` otherwise. -/
theorem updateProgress_ok_spec (db : DB) (pid : Nat) (d : ℚ) (desc : String)
    (tid : Option Nat) (now : Nat) (p : ChallengeParticipant) (ch : Challenge)
    (hdesc : desc ≠ "") (hp : findParticipant db pid = some p)
    (hnc : p.status ≠ .COMPLETED) (hch : findChallenge db p.challengeId = some ch) :
    ∃ stored log,
      updateProgress db pid (some d) desc tid now =
        ( .ok stored log
            (if effectiveTarget ch.targetProgress ≤ min (p.progress + d) 100 then
              "Congratulations! Challenge completed!"
            else "Progress updated")
        , { db with
            participants := db.participants.map
              (fun q => if q.id = pid then stored else q)
            progressLogs := db.progressLogs ++ [log]
            nextLogId := db.nextLogId + 1 } ) ∧
      stored.progress = min (p.progress + d) 100 ∧
      (stored.status = .COMPLETED ↔
        effectiveTarget ch.targetProgress ≤ min (p.progress + d) 100) ∧
      (¬ effectiveTarget ch.targetProgress ≤ min (p.progress + d) 100 →
        stored.status = p.status) ∧
      (effectiveTarget ch.targetProgress ≤ min (p.progress + d) 100 →
        stored.completedAt = some now) := by
  refine ⟨applyProgress ch.targetProgress p d now, mkLog db pid tid desc d now,
    ?_, rfl, ?_, ?_, ?_⟩
  · rw [updateProgress_ok db pid d desc tid now p ch hdesc hp hnc hch]
    by_cases hc : effectiveTarget ch.targetProgress ≤ min (p.progress + d) 100
    · rw [if_pos ((progressCompletes_iff ch.targetProgress p d).mpr hc), if_pos hc]
    · rw [if_neg (fun hb => hc ((progressCompletes_iff ch.targetProgress p d).mp hb)),
        if_neg hc]
  · cases hc : progressCompletes ch.targetProgress p d with
    | false =>
      rw [applyProgress_of_not_completes ch.targetProgress p d now hc]
      show p.status = .COMPLETED ↔ _
      constructor
      · intro h
        exact absurd h hnc
      · intro h
        exact absurd ((progressCompletes_iff ch.targetProgress p d).mpr h)
          (by simp [hc])
    | true =>
      rw [applyProgress_of_completes ch.targetProgress p d now hc]
      show ParticipantStatus.COMPLETED = .COMPLETED ↔ _
      exact ⟨fun _ => (progressCompletes_iff ch.targetProgress p d).mp hc, fun _ => rfl⟩
  · intro h
    have hc : progressCompletes ch.targetProgress p d = false :=
      Bool.eq_false_iff.mpr
        (fun hb => h ((progressCompletes_iff ch.targetProgress p d).mp hb))
    rw [applyProgress_of_not_completes ch.targetProgress p d now hc]
  · intro h
    rw [applyProgress_of_completes ch.targetProgress p d now
      ((progressCompletes_iff ch.targetProgress p d).mpr h)]

unseal Rat.add Rat.mul Rat.sub Rat.inv in
/-- C1, witness: the amended theorem instantiated at a fresh participant of a
`targetProgress = 100` challenge receiving a delta of 60: progress becomes 60,
status stays `ACTIVE`. -/
theorem updateProgress_ok_spec_witness :
    ∃ stored log,
      updateProgress
        { users := [alice],
          challenges := [{ id := 1, title := "Run", targetProgress := 100 }],
          participants := [freshParticipant], progressLogs := [],
          nextParticipantId := 2, nextLogId := 1 } 1 (some 60) "ran 5k" none 3 =
        ( .ok stored log
            (if effectiveTarget (100:ℚ) ≤ min ((0:ℚ) + 60) 100 then
              "Congratulations! Challenge completed!"
            else "Progress updated")
        , { users := [alice],
            challenges := [{ id := 1, title := "Run", targetProgress := 100 }],
            participants := [freshParticipant].map
              (fun q => if q.id = 1 then stored else q),
            progressLogs := [] ++ [log],
            nextParticipantId := 2, nextLogId := 1 + 1 } ) ∧
      stored.progress = min ((0:ℚ) + 60) 100 ∧
      (stored.status = .COMPLETED ↔ effectiveTarget (100:ℚ) ≤ min ((0:ℚ) + 60) 100) ∧
      (¬ effectiveTarget (100:ℚ) ≤ min ((0:ℚ) + 60) 100 → stored.status = .ACTIVE) ∧
      (effectiveTarget (100:ℚ) ≤ min ((0:ℚ) + 60) 100 → stored.completedAt = some 3) :=
  updateProgress_ok_spec _ 1 60 "ran 5k" none 3 freshParticipant
    { id := 1, title := "Run", targetProgress := 100 }
    (by decide) (by decide) (by decide) (by decide)

/-- C2: every Record progress call either succeeds, in which case exactly one
new `ProgressLog` row (whose `progressDelta` equals the input delta) is
appended and the participant row is updated in the same step, or fails, in
which case the store is completely unchanged.  Both writes are issued as one
`prisma.$transaction`, modelled as a single step on `DB`, so a state with the
log written but the progress not updated, or vice versa, is unreachable. -/
theorem updateProgress_atomic (db : DB) (pid : Nat) (progressDelta : Option ℚ)
    (desc : String) (tid : Option Nat) (now : Nat) :
    (∃ stored log msg d,
      (updateProgress db pid progressDelta desc tid now).1 = .ok stored log msg ∧
      progressDelta = some d ∧
      log.progressDelta = d ∧
      (updateProgress db pid progressDelta desc tid now).2.progressLogs =
        db.progressLogs ++ [log] ∧
      (updateProgress db pid progressDelta desc tid now).2.participants =
        db.participants.map (fun q => if q.id = pid then stored else q)) ∨
    ((updateProgress db pid progressDelta desc tid now).1.isOk = false ∧
      (updateProgress db pid progressDelta desc tid now).2 = db) := by
  match hd : progressDelta with
  | none =>
    right
    rw [updateProgress_none]
    exact ⟨rfl, rfl⟩
  | some d =>
    by_cases hdesc : desc = ""
    · right
      rw [hdesc, updateProgress_empty_desc]
      exact ⟨rfl, rfl⟩
    · match hp : findParticipant db pid with
      | none =>
        right
        rw [updateProgress_not_found db pid d desc tid now hdesc hp]
        exact ⟨rfl, rfl⟩
      | some p =>
        by_cases hc : p.status = .COMPLETED
        · right
          rw [updateProgress_already_completed db pid d desc tid now p hdesc hp hc]
          exact ⟨rfl, rfl⟩
        · match hch : findChallenge db p.challengeId with
          | none =>
            right
            rw [updateProgress_no_challenge db pid d desc tid now p hdesc hp hc hch]
            exact ⟨rfl, rfl⟩
          | some ch =>
            left
            rw [updateProgress_ok db pid d desc tid now p ch hdesc hp hc hch]
            exact ⟨applyProgress ch.targetProgress p d now,
              mkLog db pid tid desc d now, _, d, rfl, rfl, rfl, rfl, rfl⟩

unseal Rat.add Rat.mul Rat.sub Rat.inv in
/-- C3, counterexample.  The claim says every successful Record progress call
leaves the stored progress non-negative, even for a negative delta whose
magnitude exceeds the current progress.  The code only clamps from above
(`Math.min(progress + delta, 100)`): recording a delta of `-50` on a fresh
participant with progress `0` stores progress `-50 < 0`. -/
theorem updateProgress_negative_progress :
    ((updateProgress
        { users := [alice],
          challenges := [{ id := 1, title := "Run", targetProgress := 100 }],
          participants := [freshParticipant], progressLogs := [],
          nextParticipantId := 2, nextLogId := 1 } 1 (some (-50)) "slip" none 7
      ).2.participants.map (fun p => p.progress) = [-50])
    ∧ ((-50 : ℚ) < 0) := by
  decide

/-- C3, amended: a successful Record progress call stores progress
`min(participant.progress + progressDelta, 100)`, which is bounded above by
100 but not clamped from below; it is non-negative exactly when
`participant.progress + progressDelta` is, so a negative delta whose magnitude
exceeds the current progress drives the stored progress below 0. -/
theorem updateProgress_progress_lower_bound (db : DB) (pid : Nat) (d : ℚ)
    (desc : String) (tid : Option Nat) (now : Nat) (p : ChallengeParticipant)
    (ch : Challenge) (hdesc : desc ≠ "") (hp : findParticipant db pid = some p)
    (hnc : p.status ≠ .COMPLETED) (hch : findChallenge db p.challengeId = some ch) :
    ∃ stored log msg,
      (updateProgress db pid (some d) desc tid now).1 = .ok stored log msg ∧
      stored.progress = min (p.progress + d) 100 ∧
      stored.progress ≤ 100 ∧
      (0 ≤ p.progress + d → 0 ≤ stored.progress) := by
  rw [updateProgress_ok db pid d desc tid now p ch hdesc hp hnc hch]
  refine ⟨applyProgress ch.targetProgress p d now, mkLog db pid tid desc d now, _,
    rfl, rfl, min_le_right _ _, ?_⟩
  intro h
  exact le_min h (by norm_num)

unseal Rat.add Rat.mul Rat.sub Rat.inv in
/-- C3, witness: the amended theorem at a participant with progress 30 and
delta -20: the sum 10 is non-negative, so the stored progress is. -/
theorem updateProgress_progress_lower_bound_witness :
    ∃ stored log msg,
      (updateProgress
        { users := [alice],
          challenges := [{ id := 1, title := "Run", targetProgress := 100 }],
          participants := [{ id := 1, challengeId := 1, userId := 1, progress := 30,
                             status := .ACTIVE, joinedAt := 0, completedAt := none }],
          progressLogs := [], nextParticipantId := 2, nextLogId := 1 }
        1 (some (-20)) "rest day" none 9).1 = .ok stored log msg ∧
      stored.progress = min ((30:ℚ) + (-20)) 100 ∧
      stored.progress ≤ 100 ∧
      (0 ≤ (30:ℚ) + (-20) → 0 ≤ stored.progress) :=
  updateProgress_progress_lower_bound _ 1 (-20) "rest day" none 9
    { id := 1, challengeId := 1, userId := 1, progress := 30,
      status := .ACTIVE, joinedAt := 0, completedAt := none }
    { id := 1, title := "Run", targetProgress := 100 }
    (by decide) (by decide) (by decide) (by decide)

/-- C5: a Record progress call (with well-formed inputs, a present numeric
delta and non-empty description) on a participant whose status is `COMPLETED`
is rejected with 400 `"Challenge already completed"` and the store is
returned unchanged: no `ProgressLog` row is created and the participant row
is untouched. -/
theorem updateProgress_rejects_completed (db : DB) (pid : Nat) (d : ℚ)
    (desc : String) (tid : Option Nat) (now : Nat) (p : ChallengeParticipant)
    (hdesc : desc ≠ "") (hp : findParticipant db pid = some p)
    (hc : p.status = .COMPLETED) :
    updateProgress db pid (some d) desc tid now =
      (.err 400 "Challenge already completed", db) :=
  updateProgress_already_completed db pid d desc tid now p hdesc hp hc

unseal Rat.add Rat.mul Rat.sub Rat.inv in
/-- C5, witness: a completed participant rejects a further update. -/
theorem updateProgress_rejects_completed_witness :
    updateProgress
      { users := [alice],
        challenges := [{ id := 1, title := "Run", targetProgress := 100 }],
        participants := [{ id := 1, challengeId := 1, userId := 1, progress := 100,
                           status := .COMPLETED, joinedAt := 0, completedAt := some 5 }],
        progressLogs := [], nextParticipantId := 2, nextLogId := 1 }
      1 (some 10) "more" none 9 =
      (.err 400 "Challenge already completed",
        { users := [alice],
          challenges := [{ id := 1, title := "Run", targetProgress := 100 }],
          participants := [{ id := 1, challengeId := 1, userId := 1, progress := 100,
                             status := .COMPLETED, joinedAt := 0, completedAt := some 5 }],
          progressLogs := [], nextParticipantId := 2, nextLogId := 1 }) :=
  updateProgress_rejects_completed _ 1 10 "more" none 9
    { id := 1, challengeId := 1, userId := 1, progress := 100,
      status := .COMPLETED, joinedAt := 0, completedAt := some 5 }
    (by decide) (by decide) (by decide)

/-- C10: a successful Record progress call that does not complete the
challenge writes `completedAt := null` unconditionally — the update always
sets the column (`completedAt: isCompleted ? new Date() : null`) — so any
previously non-null `completedAt` (reachable after a manual
`COMPLETED -> ACTIVE` transition through `updateParticipantStatus`) is
overwritten with `null` rather than left unchanged. -/
theorem updateProgress_overwrites_completedAt (db : DB) (pid : Nat) (d : ℚ)
    (desc : String) (tid : Option Nat) (now : Nat) (p : ChallengeParticipant)
    (ch : Challenge) (hdesc : desc ≠ "") (hp : findParticipant db pid = some p)
    (hnc : p.status ≠ .COMPLETED) (hch : findChallenge db p.challengeId = some ch)
    (hnotdone : ¬ effectiveTarget ch.targetProgress ≤ min (p.progress + d) 100) :
    ∃ stored log,
      updateProgress db pid (some d) desc tid now =
        ( .ok stored log "Progress updated"
        , { db with
            participants := db.participants.map
              (fun q => if q.id = pid then stored else q)
            progressLogs := db.progressLogs ++ [log]
            nextLogId := db.nextLogId + 1 } ) ∧
      stored.completedAt = none ∧
      stored.status = p.status := by
  have hc : progressCompletes ch.targetProgress p d = false :=
    Bool.eq_false_iff.mpr
      (fun hb => hnotdone ((progressCompletes_iff ch.targetProgress p d).mp hb))
  refine ⟨applyProgress ch.targetProgress p d now, mkLog db pid tid desc d now, ?_, ?_, ?_⟩
  · rw [updateProgress_ok db pid d desc tid now p ch hdesc hp hnc hch]
    rw [if_neg (by simp [hc])]
  · rw [applyProgress_of_not_completes ch.targetProgress p d now hc]
  · rw [applyProgress_of_not_completes ch.targetProgress p d now hc]

unseal Rat.add Rat.mul Rat.sub Rat.inv in
/-- C10, witness: the pre-state is produced by the status-update operation
itself, manually transitioning a completed participant (with
`completedAt = some 5`) back to `ACTIVE`; a subsequent non-completing delta
of 10 stores `completedAt = null`, erasing the old completion timestamp. -/
theorem updateProgress_overwrites_completedAt_witness :
    ∃ stored log,
      updateProgress
        (updateParticipantStatus
          { users := [alice],
            challenges := [{ id := 1, title := "Run", targetProgress := 100 }],
            participants := [{ id := 1, challengeId := 1, userId := 1, progress := 100,
                               status := .COMPLETED, joinedAt := 0,
                               completedAt := some 5 }],
            progressLogs := [], nextParticipantId := 2, nextLogId := 1 } 1 "ACTIVE").2
        1 (some (-30)) "back at it" none 9 =
        ( .ok stored log "Progress updated"
        , { (updateParticipantStatus
              { users := [alice],
                challenges := [{ id := 1, title := "Run", targetProgress := 100 }],
                participants := [{ id := 1, challengeId := 1, userId := 1,
                                   progress := 100, status := .COMPLETED,
                                   joinedAt := 0, completedAt := some 5 }],
                progressLogs := [], nextParticipantId := 2, nextLogId := 1 } 1
              "ACTIVE").2 with
            participants := ((updateParticipantStatus
              { users := [alice],
                challenges := [{ id := 1, title := "Run", targetProgress := 100 }],
                participants := [{ id := 1, challengeId := 1, userId := 1,
                                   progress := 100, status := .COMPLETED,
                                   joinedAt := 0, completedAt := some 5 }],
                progressLogs := [], nextParticipantId := 2, nextLogId := 1 } 1
              "ACTIVE").2).participants.map
                (fun q => if q.id = 1 then stored else q)
            progressLogs := [] ++ [log]
            nextLogId := 1 + 1 } ) ∧
      stored.completedAt = none ∧
      stored.status = .ACTIVE :=
  updateProgress_overwrites_completedAt _ 1 (-30) "back at it" none 9
    { id := 1, challengeId := 1, userId := 1, progress := 100,
      status := .ACTIVE, joinedAt := 0, completedAt := some 5 }
    { id := 1, title := "Run", targetProgress := 100 }
    (by decide) (by decide) (by decide) (by decide) (by decide)

/-- C6: join with both ids present (non-falsy), on a store satisfying the
user foreign key (every participant's `userId` references an existing user):
a missing challenge or user yields a 404 not-found outcome with the store
unchanged; an existing `(challengeId, userId)` participant row yields the
conflict outcome (400, `"User already joined this challenge."`, Prisma
`P2002`) with no duplicate row created; otherwise exactly one participant row
with `status = ACTIVE` and `progress = 0` is appended and returned with the
user and challenge embedded. -/
theorem createParticipant_contract (db : DB) (cid uid : Nat) (now : Nat)
    (hcid : cid ≠ 0) (huid : uid ≠ 0)
    (hWF : ∀ q ∈ db.participants, ∃ u ∈ db.users, u.id = q.userId) :
    (findChallenge db cid = none →
      createParticipant db (some cid) (some uid) now =
        (.err 404 "Challenge not found", db)) ∧
    (∀ ch, findChallenge db cid = some ch → findUser db uid = none →
      createParticipant db (some cid) (some uid) now =
        (.err 404 "User or Challenge not found", db)) ∧
    (∀ ch, findChallenge db cid = some ch →
      (∃ q ∈ db.participants, q.challengeId = cid ∧ q.userId = uid) →
      createParticipant db (some cid) (some uid) now =
        (.err 400 "User already joined this challenge.", db)) ∧
    (∀ ch u, findChallenge db cid = some ch → findUser db uid = some u →
      (∀ q ∈ db.participants, ¬ (q.challengeId = cid ∧ q.userId = uid)) →
      createParticipant db (some cid) (some uid) now =
        ( .created
            { id := db.nextParticipantId, challengeId := cid, userId := uid,
              progress := 0, status := .ACTIVE, joinedAt := now,
              completedAt := none } u ch
        , { db with
            participants := db.participants ++
              [{ id := db.nextParticipantId, challengeId := cid, userId := uid,
                 progress := 0, status := .ACTIVE, joinedAt := now,
                 completedAt := none }]
            nextParticipantId := db.nextParticipantId + 1 } )) := by
  refine ⟨?_, ?_, ?_, ?_⟩
  · intro hch
    simp [createParticipant, hcid, huid, hch]
  · intro ch hch hu
    have hany : db.participants.any
        (fun q => q.challengeId == cid && q.userId == uid) = false := by
      rw [List.any_eq_false]
      intro q hq hqq
      simp only [Bool.and_eq_true, beq_iff_eq] at hqq
      obtain ⟨u, hu', hid⟩ := hWF q hq
      have : findUser db uid ≠ none := by
        intro hnone
        rw [findUser, List.find?_eq_none] at hnone
        exact hnone u hu' (by simp [hid, hqq.2])
      exact this hu
    simp [createParticipant, hcid, huid, hch, hany, hu]
  · intro ch hch hpair
    have hany : db.participants.any
        (fun q => q.challengeId == cid && q.userId == uid) = true := by
      rw [List.any_eq_true]
      obtain ⟨q, hq, h1, h2⟩ := hpair
      exact ⟨q, hq, by simp [h1, h2]⟩
    simp [createParticipant, hcid, huid, hch, hany]
  · intro ch u hch hu hnopair
    have hany : db.participants.any
        (fun q => q.challengeId == cid && q.userId == uid) = false := by
      rw [List.any_eq_false]
      intro q hq hqq
      simp only [Bool.and_eq_true, beq_iff_eq] at hqq
      exact hnopair q hq ⟨hqq.1, hqq.2⟩
    simp [createParticipant, hcid, huid, hch, hany, hu]

/-- C6, witness: joining an empty store with an existing user and challenge
creates the `ACTIVE`, progress-0 row. -/
theorem createParticipant_contract_witness :
    createParticipant
      { users := [alice], challenges := [{ id := 1, title := "Run", targetProgress := 100 }],
        participants := [], progressLogs := [], nextParticipantId := 1, nextLogId := 1 }
      (some 1) (some 1) 4 =
      ( .created
          { id := 1, challengeId := 1, userId := 1, progress := 0,
            status := .ACTIVE, joinedAt := 4, completedAt := none } alice
          { id := 1, title := "Run", targetProgress := 100 }
      , { users := [alice],
          challenges := [{ id := 1, title := "Run", targetProgress := 100 }],
          participants := [] ++
            [{ id := 1, challengeId := 1, userId := 1, progress := 0,
               status := .ACTIVE, joinedAt := 4, completedAt := none }],
          progressLogs := [], nextParticipantId := 1 + 1, nextLogId := 1 } ) :=
  (createParticipant_contract
    { users := [alice], challenges := [{ id := 1, title := "Run", targetProgress := 100 }],
      participants := [], progressLogs := [], nextParticipantId := 1, nextLogId := 1 }
    1 1 4 (by decide) (by decide) (by simp)).2.2.2
    { id := 1, title := "Run", targetProgress := 100 } alice
    (by decide) (by decide) (by simp)

unseal Rat.add Rat.mul Rat.sub Rat.inv in
/-- C7, counterexample.  The claim says the per-user statistics contain a
count for each status value of `{ACTIVE, COMPLETED, DROPPED, PAUSED}`.  The
`stats` object built by `getUserAllProgress` has fields `total`, `completed`,
`active`, `dropped` and `averageProgress` only: for a user with two `PAUSED`
rows and one `ACTIVE` row, the `PAUSED` count (2) appears nowhere in the
returned statistics. -/
theorem getUserAllProgressStats_no_paused_count :
    (({ users := [alice], challenges := [],
        participants :=
          [{ id := 1, challengeId := 1, userId := 1, progress := 0,
             status := .PAUSED, joinedAt := 0, completedAt := none },
           { id := 2, challengeId := 2, userId := 1, progress := 0,
             status := .PAUSED, joinedAt := 0, completedAt := none },
           { id := 3, challengeId := 3, userId := 1, progress := 0,
             status := .ACTIVE, joinedAt := 0, completedAt := none }],
        progressLogs := [], nextParticipantId := 4, nextLogId := 1 } : DB).participants.countP
      (fun p => p.userId == 1 && p.status == .PAUSED) = 2) ∧
    (getUserAllProgressStats
      { users := [alice], challenges := [],
        participants :=
          [{ id := 1, challengeId := 1, userId := 1, progress := 0,
             status := .PAUSED, joinedAt := 0, completedAt := none },
           { id := 2, challengeId := 2, userId := 1, progress := 0,
             status := .PAUSED, joinedAt := 0, completedAt := none },
           { id := 3, challengeId := 3, userId := 1, progress := 0,
             status := .ACTIVE, joinedAt := 0, completedAt := none }],
        progressLogs := [], nextParticipantId := 4, nextLogId := 1 } 1 =
      { total := 3, completed := 0, active := 1, dropped := 0, averageProgress := 0 }) ∧
    (2 ∉ [(3:Nat), 0, 1, 0]) ∧ ((0:ℚ) ≠ 2) := by
  decide

/-- C7, amended: the per-user statistics contain the total participant count,
counts for the statuses `COMPLETED`, `ACTIVE` and `DROPPED` (but no `PAUSED`
count), and the mean of `progress` across all of that user's participant rows
rounded to 2 decimals, `0` if the user has no participant rows. -/
theorem getUserAllProgressStats_spec (db : DB) (uid : Nat) :
    (getUserAllProgressStats db uid).total =
      db.participants.countP (fun p => p.userId == uid) ∧
    (getUserAllProgressStats db uid).completed =
      db.participants.countP (fun p => p.status == .COMPLETED && p.userId == uid) ∧
    (getUserAllProgressStats db uid).active =
      db.participants.countP (fun p => p.status == .ACTIVE && p.userId == uid) ∧
    (getUserAllProgressStats db uid).dropped =
      db.participants.countP (fun p => p.status == .DROPPED && p.userId == uid) ∧
    (getUserAllProgressStats db uid).averageProgress =
      (if db.participants.countP (fun p => p.userId == uid) = 0 then 0
       else toFixed2
        (((db.participants.filter (fun p => p.userId == uid)).map
            (fun p => p.progress)).sum /
          (db.participants.countP (fun p => p.userId == uid) : ℚ))) := by
  refine ⟨?_, ?_, ?_, ?_, ?_⟩
  · simp [getUserAllProgressStats, List.countP_eq_length_filter]
  · simp [getUserAllProgressStats, List.countP_eq_length_filter, List.countP_filter]
  · simp [getUserAllProgressStats, List.countP_eq_length_filter, List.countP_filter]
  · simp [getUserAllProgressStats, List.countP_eq_length_filter, List.countP_filter]
  · simp only [getUserAllProgressStats, List.countP_eq_length_filter]
    rw [List.sum_eq_foldl, List.foldl_map]

unseal Rat.add Rat.mul Rat.sub Rat.inv in
/-- C8, counterexample.  The claim says deleting a challenge cascades to its
participant rows.  The migration declares
`ChallengeParticipant_challengeId_fkey ... ON DELETE RESTRICT`, so with one
participant referencing challenge 1 the delete fails (500) and the
participant row — and the challenge — remain. -/
theorem deleteChallenge_restricted_not_cascade :
    deleteChallenge
      { users := [alice], challenges := [{ id := 1, title := "Run", targetProgress := 100 }],
        participants := [freshParticipant], progressLogs := [],
        nextParticipantId := 2, nextLogId := 1 } 1 =
      ( .err 500 "Failed to delete challenge"
      , { users := [alice], challenges := [{ id := 1, title := "Run", targetProgress := 100 }],
          participants := [freshParticipant], progressLogs := [],
          nextParticipantId := 2, nextLogId := 1 } ) := by
  decide

/-- C8, amended: both foreign keys on `ChallengeParticipant` are declared
`ON DELETE RESTRICT`: deleting an existing challenge that still has
participant rows fails (mapped to 500) and changes nothing — it does not
cascade — and deleting an existing user with participant rows likewise fails
and changes nothing. -/
theorem delete_restrict_spec (db : DB) (cid uid : Nat) :
    (∀ ch, findChallenge db cid = some ch →
      (∃ q ∈ db.participants, q.challengeId = cid) →
      deleteChallenge db cid = (.err 500 "Failed to delete challenge", db)) ∧
    (∀ u, findUser db uid = some u →
      (∃ q ∈ db.participants, q.userId = uid) →
      deleteUser db uid = (.err 500 "Server error", db)) := by
  constructor
  · intro ch hch hq
    have hany : db.participants.any (fun p => p.challengeId == cid) = true := by
      rw [List.any_eq_true]
      obtain ⟨q, hq', h1⟩ := hq
      exact ⟨q, hq', by simp [h1]⟩
    simp [deleteChallenge, hch, hany]
  · intro u hu hq
    have hany : db.participants.any (fun p => p.userId == uid) = true := by
      rw [List.any_eq_true]
      obtain ⟨q, hq', h1⟩ := hq
      exact ⟨q, hq', by simp [h1]⟩
    simp [deleteUser, hu, hany]

/-- C8, witness: the amended theorem at a store with one participant of
challenge 1 owned by user 1. -/
theorem delete_restrict_spec_witness :
    deleteChallenge
      { users := [alice], challenges := [{ id := 1, title := "Run", targetProgress := 100 }],
        participants := [freshParticipant], progressLogs := [],
        nextParticipantId := 2, nextLogId := 1 } 1 =
      ( .err 500 "Failed to delete challenge"
      , { users := [alice], challenges := [{ id := 1, title := "Run", targetProgress := 100 }],
          participants := [freshParticipant], progressLogs := [],
          nextParticipantId := 2, nextLogId := 1 } ) ∧
    deleteUser
      { users := [alice], challenges := [{ id := 1, title := "Run", targetProgress := 100 }],
        participants := [freshParticipant], progressLogs := [],
        nextParticipantId := 2, nextLogId := 1 } 1 =
      ( .err 500 "Server error"
      , { users := [alice], challenges := [{ id := 1, title := "Run", targetProgress := 100 }],
          participants := [freshParticipant], progressLogs := [],
          nextParticipantId := 2, nextLogId := 1 } ) :=
  ⟨(delete_restrict_spec _ 1 1).1 { id := 1, title := "Run", targetProgress := 100 }
      (by decide) ⟨freshParticipant, by decide, by decide⟩,
   (delete_restrict_spec _ 1 1).2 alice
      (by decide) ⟨freshParticipant, by decide, by decide⟩⟩

/-! Case characterizations of the two state-changing operations, used for the
reachability invariant. -/

theorem createParticipant_db_cases (db : DB) (cid uid : Option Nat) (now : Nat) :
    (createParticipant db cid uid now).2 = db ∨
    ∃ c u ch, findChallenge db c = some ch ∧
      (createParticipant db cid uid now).2 =
        { db with
          participants := db.participants ++
            [{ id := db.nextParticipantId, challengeId := c, userId := u,
               progress := 0, status := .ACTIVE, joinedAt := now,
               completedAt := none }]
          nextParticipantId := db.nextParticipantId + 1 } := by
  match cid, uid with
  | none, _ =>
    left
    simp [createParticipant]
  | some c, none =>
    left
    simp [createParticipant]
  | some c, some u =>
    by_cases hc0 : c = 0
    · left
      simp [createParticipant, hc0]
    · by_cases hu0 : u = 0
      · left
        simp [createParticipant, hu0]
      · cases hch : findChallenge db c with
        | none =>
          left
          simp [createParticipant, hc0, hu0, hch]
        | some ch =>
          cases hany : db.participants.any
              (fun q => q.challengeId == c && q.userId == u) with
          | true =>
            left
            simp [createParticipant, hc0, hu0, hch, hany]
          | false =>
            cases hu : findUser db u with
            | none =>
              left
              simp [createParticipant, hc0, hu0, hch, hany, hu]
            | some uu =>
              right
              exact ⟨c, u, ch, hch, by simp [createParticipant, hc0, hu0, hch, hany, hu]⟩

theorem updateProgress_db_cases (db : DB) (pid : Nat) (d? : Option ℚ)
    (desc : String) (tid : Option Nat) (now : Nat) :
    (updateProgress db pid d? desc tid now).2 = db ∨
    ∃ d p ch, findParticipant db pid = some p ∧ p.status ≠ .COMPLETED ∧
      findChallenge db p.challengeId = some ch ∧
      (updateProgress db pid d? desc tid now).2 =
        { db with
          participants := db.participants.map
            (fun q => if q.id = pid then applyProgress ch.targetProgress p d now else q)
          progressLogs := db.progressLogs ++ [mkLog db pid tid desc d now]
          nextLogId := db.nextLogId + 1 } := by
  match hd : d? with
  | none =>
    rw [updateProgress_none]
    exact .inl rfl
  | some d =>
    by_cases hdesc : desc = ""
    · rw [hdesc, updateProgress_empty_desc]
      exact .inl rfl
    · match hp : findParticipant db pid with
      | none =>
        rw [updateProgress_not_found db pid d desc tid now hdesc hp]
        exact .inl rfl
      | some p =>
        by_cases hc : p.status = .COMPLETED
        · rw [updateProgress_already_completed db pid d desc tid now p hdesc hp hc]
          exact .inl rfl
        · match hch : findChallenge db p.challengeId with
          | none =>
            rw [updateProgress_no_challenge db pid d desc tid now p hdesc hp hc hch]
            exact .inl rfl
          | some ch =>
            rw [updateProgress_ok db pid d desc tid now p ch hdesc hp hc hch]
            exact .inr ⟨d, p, ch, rfl, hc, hch, rfl⟩

/-- C4, counterexample.  The claim includes the status-update operation among
the reachable-state generators, but `updateParticipantStatus` writes any enum
value without touching `completedAt`: joining a challenge and then manually
setting the status to `COMPLETED` reaches a state whose participant has
`status = COMPLETED`, `completedAt = null` and progress 0, far from the
target — all three legs of the claimed equivalence fail. -/
theorem reachable_completed_without_completedAt :
    ∃ db, Reachable [alice] [{ id := 1, title := "Run", targetProgress := 100 }] db ∧
      ∃ p ∈ db.participants, p.status = ParticipantStatus.COMPLETED ∧
        p.completedAt = none ∧ p.progress = 0 :=
  ⟨_, Reachable.setStatus _ 1 "COMPLETED"
      (Reachable.join _ (some 1) (some 1) 0 Reachable.init), by decide⟩

/-- The challenge table is untouched by join and record progress. -/
theorem reachableJP_challenges (users : List User) (challenges : List Challenge)
    (db : DB) (hr : ReachableJP users challenges db) :
    db.challenges = challenges := by
  induction hr with
  | init => rfl
  | join db0 cid uid now hr0 ih =>
    rcases createParticipant_db_cases db0 cid uid now with heq | ⟨c, u, ch, hch, heq⟩
    · rw [heq]
      exact ih
    · rw [heq]
      exact ih
  | progress db0 pid d desc tid now hr0 ih =>
    rcases updateProgress_db_cases db0 pid d desc tid now with heq | ⟨d0, p, ch, hp, hnc, hch, heq⟩
    · rw [heq]
      exact ih
    · rw [heq]
      exact ih

/-- C4, amended: restricted to states reachable through join and record
progress alone (no manual status updates), and assuming every challenge has a
non-negative `targetProgress`, a participant has `status = COMPLETED` iff its
`completedAt` field is non-null, iff its progress has reached the effective
target (`targetProgress`, or 100 when `targetProgress` is unset or 0); since
progress is frozen once the participant completes, reaching the effective
target currently coincides with having reached it at least once. -/
theorem reachableJP_completion_invariant (users : List User)
    (challenges : List Challenge)
    (htgt : ∀ ch ∈ challenges, 0 ≤ ch.targetProgress) (db : DB)
    (hr : ReachableJP users challenges db) :
    ∀ p ∈ db.participants, ∀ ch, findChallenge db p.challengeId = some ch →
      ((p.status = .COMPLETED ↔ p.completedAt ≠ none) ∧
       (p.status = .COMPLETED ↔ effectiveTarget ch.targetProgress ≤ p.progress)) := by
  have heffpos : ∀ ch ∈ challenges, 0 < effectiveTarget ch.targetProgress := by
    intro ch hch
    unfold effectiveTarget
    by_cases h0 : ch.targetProgress = 0
    · rw [if_pos h0]
      norm_num
    · rw [if_neg h0]
      exact lt_of_le_of_ne (htgt ch hch) (Ne.symm h0)
  induction hr with
  | init =>
    intro p hp
    simp at hp
  | join db0 cid uid now hr0 ih =>
    intro p hp ch hch
    rcases createParticipant_db_cases db0 cid uid now with heq | ⟨c, u, ch0, hch0, heq⟩
    · rw [heq] at hp hch
      exact ih p hp ch hch
    · rw [heq] at hp hch
      have hch' : findChallenge db0 p.challengeId = some ch := hch
      rcases List.mem_append.mp hp with hp0 | hpnew
      · exact ih p hp0 ch hch'
      · have hpeq : p =
            { id := db0.nextParticipantId, challengeId := c, userId := u,
              progress := 0, status := .ACTIVE, joinedAt := now,
              completedAt := none } := by
          simpa using hpnew
        subst hpeq
        have hmem : ch ∈ challenges := by
          have := List.mem_of_find?_eq_some hch'
          rwa [reachableJP_challenges users challenges db0 hr0] at this
        have hpos := heffpos ch hmem
        refine ⟨by simp, ?_⟩
        simp only [show ParticipantStatus.ACTIVE ≠ ParticipantStatus.COMPLETED
          from by simp, iff_false, false_iff]
        exact fun hle => absurd (lt_of_lt_of_le hpos hle) (by norm_num)
  | progress db0 pid d? desc tid now hr0 ih =>
    intro p hp ch hch
    rcases updateProgress_db_cases db0 pid d? desc tid now with
      heq | ⟨d, q0, ch0, hq0, hnc, hch0, heq⟩
    · rw [heq] at hp hch
      exact ih p hp ch hch
    · rw [heq] at hp hch
      have hch' : findChallenge db0 p.challengeId = some ch := hch
      rcases List.mem_map.mp hp with ⟨q, hqmem, hqeq⟩
      by_cases hid : q.id = pid
      · rw [if_pos hid] at hqeq
        have hcid : p.challengeId = q0.challengeId := by
          rw [← hqeq]
          rfl
        have hsome : some ch0 = some ch := by
          rw [← hch0, ← hcid]
          exact hch'
        have hcheq : ch0 = ch := Option.some.inj hsome
        rw [← hcheq, ← hqeq]
        cases hcomp : progressCompletes ch0.targetProgress q0 d with
        | true =>
          rw [applyProgress_of_completes ch0.targetProgress q0 d now hcomp]
          refine ⟨by simp, ?_, ?_⟩
          · intro _
            exact (progressCompletes_iff ch0.targetProgress q0 d).mp hcomp
          · intro _
            rfl
        | false =>
          rw [applyProgress_of_not_completes ch0.targetProgress q0 d now hcomp]
          refine ⟨by simpa using hnc, ?_, ?_⟩
          · intro hs
            exact absurd hs hnc
          · intro hle
            exact absurd ((progressCompletes_iff ch0.targetProgress q0 d).mpr hle)
              (by simp [hcomp])
      · rw [if_neg hid] at hqeq
        subst hqeq
        exact ih q hqmem ch hch'

unseal Rat.add Rat.mul Rat.sub Rat.inv in
/-- C4, witness: after join and one non-completing progress delta of 60
toward target 100, the stored participant is `ACTIVE`, `completedAt` is null
and progress 60 has not reached the target, matching the invariant. -/
theorem reachableJP_completion_invariant_witness :
    (({ id := 1, challengeId := 1, userId := 1, progress := 60,
        status := .ACTIVE, joinedAt := 0,
        completedAt := none } : ChallengeParticipant).status = .COMPLETED ↔
      ({ id := 1, challengeId := 1, userId := 1, progress := 60,
         status := .ACTIVE, joinedAt := 0,
         completedAt := none } : ChallengeParticipant).completedAt ≠ none) ∧
    (({ id := 1, challengeId := 1, userId := 1, progress := 60,
        status := .ACTIVE, joinedAt := 0,
        completedAt := none } : ChallengeParticipant).status = .COMPLETED ↔
      effectiveTarget
        ({ id := 1, title := "Run", targetProgress := 100 } : Challenge).targetProgress ≤
        ({ id := 1, challengeId := 1, userId := 1, progress := 60,
           status := .ACTIVE, joinedAt := 0,
           completedAt := none } : ChallengeParticipant).progress) :=
  reachableJP_completion_invariant [alice]
    [{ id := 1, title := "Run", targetProgress := 100 }]
    (by decide) _
    (ReachableJP.progress _ 1 (some 60) "ran 5k" none 1
      (ReachableJP.join _ (some 1) (some 1) 0 ReachableJP.init))
    { id := 1, challengeId := 1, userId := 1, progress := 60,
      status := .ACTIVE, joinedAt := 0, completedAt := none }
    (by decide) { id := 1, title := "Run", targetProgress := 100 } (by decide)

/-! Ordering facts for the leaderboard comparison. -/

theorem completedAtAscLE_trans (a b c : Option Nat) (hab : completedAtAscLE a b = true)
    (hbc : completedAtAscLE b c = true) : completedAtAscLE a c = true := by
  cases a <;> cases b <;> cases c <;>
    simp [completedAtAscLE] at * <;> omega

theorem completedAtAscLE_total (a b : Option Nat) :
    (completedAtAscLE a b || completedAtAscLE b a) = true := by
  cases a <;> cases b <;> simp [completedAtAscLE] <;> omega

theorem leaderboardLE_trans (a b c : ChallengeParticipant)
    (hab : leaderboardLE a b) (hbc : leaderboardLE b c) : leaderboardLE a c := by
  unfold leaderboardLE at *
  by_cases h1 : a.progress = b.progress
  · rw [if_pos h1] at hab
    by_cases h2 : b.progress = c.progress
    · rw [if_pos h2] at hbc
      rw [if_pos (h1.trans h2)]
      exact completedAtAscLE_trans _ _ _ hab hbc
    · rw [if_neg h2] at hbc
      have hcb : c.progress < b.progress := of_decide_eq_true hbc
      have hca : c.progress < a.progress := h1 ▸ hcb
      rw [if_neg (fun h => absurd (h ▸ hca) (lt_irrefl _))]
      exact decide_eq_true hca
  · rw [if_neg h1] at hab
    have hba : b.progress < a.progress := of_decide_eq_true hab
    by_cases h2 : b.progress = c.progress
    · rw [if_pos h2] at hbc
      have hca : c.progress < a.progress := h2 ▸ hba
      rw [if_neg (fun h => absurd (h ▸ hca) (lt_irrefl _))]
      exact decide_eq_true hca
    · rw [if_neg h2] at hbc
      have hcb : c.progress < b.progress := of_decide_eq_true hbc
      have hca : c.progress < a.progress := hcb.trans hba
      rw [if_neg (fun h => absurd (h ▸ hca) (lt_irrefl _))]
      exact decide_eq_true hca

theorem leaderboardLE_total (a b : ChallengeParticipant) :
    (leaderboardLE a b || leaderboardLE b a) = true := by
  unfold leaderboardLE
  by_cases h : a.progress = b.progress
  · rw [if_pos h, if_pos h.symm]
    exact completedAtAscLE_total _ _
  · rw [if_neg h, if_neg (Ne.symm h)]
    simp only [Bool.or_eq_true, decide_eq_true_eq]
    exact (lt_or_gt_of_ne h).symm

theorem entryLE_mkEntry (db : DB) (i j : Nat) (a b : ChallengeParticipant) :
    entryLE (mkEntry db i a) (mkEntry db j b) = leaderboardLE a b := rfl

/-! Facts about the rank-assigning map. -/

theorem rankEntries_length (db : DB) (r : Nat) (ps : List ChallengeParticipant) :
    (rankEntries db r ps).length = ps.length := by
  induction ps generalizing r with
  | nil => rfl
  | cons p ps ih => simp [rankEntries, ih]

theorem rankEntries_map_rank (db : DB) (r : Nat) (ps : List ChallengeParticipant) :
    (rankEntries db r ps).map (fun e => e.rank) = List.range' r ps.length := by
  induction ps generalizing r with
  | nil => rfl
  | cons p ps ih => simp [rankEntries, List.range', ih, mkEntry]

theorem rankEntries_mem (db : DB) (r : Nat) (ps : List ChallengeParticipant)
    (e : LeaderboardEntry) (he : e ∈ rankEntries db r ps) :
    ∃ p ∈ ps, ∃ k, e = mkEntry db k p := by
  induction ps generalizing r with
  | nil => simp [rankEntries] at he
  | cons p ps ih =>
    simp only [rankEntries, List.mem_cons] at he
    rcases he with he | he
    · exact ⟨p, List.mem_cons_self p ps, r, he⟩
    · obtain ⟨q, hq, k, hk⟩ := ih (r + 1) he
      exact ⟨q, List.mem_cons_of_mem p hq, k, hk⟩

theorem rankEntries_pairwise (db : DB) (r : Nat) (ps : List ChallengeParticipant)
    (h : ps.Pairwise (fun a b => leaderboardLE a b = true)) :
    (rankEntries db r ps).Pairwise (fun a b => entryLE a b = true) := by
  induction ps generalizing r with
  | nil => exact List.Pairwise.nil
  | cons p ps ih =>
    rw [List.pairwise_cons] at h
    refine List.Pairwise.cons ?_ (ih (r + 1) h.2)
    intro e he
    obtain ⟨q, hq, k, hk⟩ := rankEntries_mem db (r + 1) ps e he
    rw [hk, entryLE_mkEntry]
    exact h.1 q hq

unseal List.merge List.mergeSort in
/-- C9: the leaderboard for a challenge keeps exactly the participants of
that challenge matching the optional status filter, ordered by progress
descending with ties broken by `completedAt` ascending, truncated to the
caller-supplied limit (route default 10); each entry carries a 1-based rank
equal to its position and the count of that participant's progress-log rows.
In particular, on the `[90, 90, 70]` example with `completedAt` set only for
the two rows at 90, the two 90s come first ordered by `completedAt`
ascending, then the 70. -/
theorem getChallengeLeaderboard_spec (db : DB) (cid : Nat) (limit : Nat)
    (filt : Option ParticipantStatus) :
    (getChallengeLeaderboard db cid limit filt).length ≤ limit ∧
    (getChallengeLeaderboard db cid limit filt).length =
      min limit
        (db.participants.countP
          (fun p => p.challengeId == cid && statusMatches filt p)) ∧
    (getChallengeLeaderboard db cid limit filt).map (fun e => e.rank) =
      List.range' 1 (getChallengeLeaderboard db cid limit filt).length ∧
    (getChallengeLeaderboard db cid limit filt).Pairwise
      (fun a b => entryLE a b = true) ∧
    (∀ e ∈ getChallengeLeaderboard db cid limit filt,
      ∃ p ∈ db.participants, p.challengeId = cid ∧ statusMatches filt p = true ∧
        e.participantId = p.id ∧ e.progress = p.progress ∧ e.status = p.status ∧
        e.completedAt = p.completedAt ∧
        e.totalActivities =
          db.progressLogs.countP (fun l => l.participantId == p.id)) ∧
    getChallengeLeaderboard leaderboardExampleDB 1 10 none =
      [{ rank := 1, participantId := 3, user := some carol, progress := 90,
         status := .COMPLETED, completedAt := some 100, totalActivities := 0 },
       { rank := 2, participantId := 2, user := some bob, progress := 90,
         status := .COMPLETED, completedAt := some 200, totalActivities := 0 },
       { rank := 3, participantId := 1, user := some alice, progress := 70,
         status := .ACTIVE, completedAt := none, totalActivities := 0 }] := by
  refine ⟨?_, ?_, ?_, ?_, ?_, ?_⟩
  · rw [getChallengeLeaderboard, rankEntries_length, List.length_take]
    exact min_le_left _ _
  · rw [getChallengeLeaderboard, rankEntries_length, List.length_take,
      (List.mergeSort_perm _ _).length_eq, List.countP_eq_length_filter]
  · rw [getChallengeLeaderboard, rankEntries_map_rank, rankEntries_length]
  · rw [getChallengeLeaderboard]
    refine rankEntries_pairwise _ _ _ ?_
    refine List.Pairwise.sublist (List.take_sublist _ _) ?_
    exact List.sorted_mergeSort leaderboardLE_trans leaderboardLE_total _
  · intro e he
    rw [getChallengeLeaderboard] at he
    obtain ⟨p, hp, k, hk⟩ := rankEntries_mem _ _ _ _ he
    have hp2 : p ∈ (db.participants.filter
        (fun p => p.challengeId == cid && statusMatches filt p)).mergeSort
          leaderboardLE :=
      List.take_subset _ _ hp
    rw [(List.mergeSort_perm _ _).mem_iff, List.mem_filter] at hp2
    have hpred := hp2.2
    simp only [Bool.and_eq_true, beq_iff_eq] at hpred
    refine ⟨p, hp2.1, hpred.1, hpred.2, ?_, ?_, ?_, ?_, ?_⟩
    · rw [hk]
      rfl
    · rw [hk]
      rfl
    · rw [hk]
      rfl
    · rw [hk]
      rfl
    · rw [hk]
      show (db.progressLogs.filter (fun l => l.participantId == p.id)).length = _
      exact (List.countP_eq_length_filter _ _).symm
  · rfl

unseal List.merge List.mergeSort in
/-- C9, witness: the main theorem applied at the example store: the mem
conjunct instantiated at the top entry yields the underlying participant
row 3. -/
theorem getChallengeLeaderboard_spec_witness :
    ∃ p ∈ leaderboardExampleDB.participants, p.challengeId = 1 ∧
      statusMatches none p = true ∧
      ({ rank := 1, participantId := 3, user := some carol, progress := 90,
         status := .COMPLETED, completedAt := some 100,
         totalActivities := 0 } : LeaderboardEntry).participantId = p.id ∧
      ({ rank := 1, participantId := 3, user := some carol, progress := 90,
         status := .COMPLETED, completedAt := some 100,
         totalActivities := 0 } : LeaderboardEntry).progress = p.progress ∧
      ({ rank := 1, participantId := 3, user := some carol, progress := 90,
         status := .COMPLETED, completedAt := some 100,
         totalActivities := 0 } : LeaderboardEntry).status = p.status ∧
      ({ rank := 1, participantId := 3, user := some carol, progress := 90,
         status := .COMPLETED, completedAt := some 100,
         totalActivities := 0 } : LeaderboardEntry).completedAt = p.completedAt ∧
      ({ rank := 1, participantId := 3, user := some carol, progress := 90,
         status := .COMPLETED, completedAt := some 100,
         totalActivities := 0 } : LeaderboardEntry).totalActivities =
        leaderboardExampleDB.progressLogs.countP
          (fun l => l.participantId == p.id) :=
  (getChallengeLeaderboard_spec leaderboardExampleDB 1 10 none).2.2.2.2.1
    { rank := 1, participantId := 3, user := some carol, progress := 90,
      status := .COMPLETED, completedAt := some 100, totalActivities := 0 }
    (by rw [(getChallengeLeaderboard_spec leaderboardExampleDB 1 10 none).2.2.2.2.2]
        exact List.mem_cons_self _ _)

end Scout
